import Mathlib

/-!
Shallow embedding of the WebSocket server core (`server/src/wsServer.ts`):
the connection registry (`clients : Map<string, WebSocket>`), the three
routing helpers (`broadcastAll`, `sendTo`, `broadcastExcept`), the
per-connection dispatcher event handlers installed by
`setupWebSocketServer`/`setupClientHandlers`, `getClientCount`, `close`,
and the identity generator `generateClientId`.

JavaScript `Map` iteration follows insertion order, so the registry is
modelled as an association list with unique keys; `Map.set` replaces in
place or appends, `Map.delete` removes the unique matching entry.
Transport writes (`ws.send`) are modelled as an explicit write log, and
each occurrence of `JSON.stringify` is counted in the log, so that
"serialize once per broadcast" is visible in the model.
-/

namespace WsRepo

/-- Value of the `ws` library constant `WebSocket.CONNECTING`. -/
def CONNECTING : Nat := 0

/-- Value of the `ws` library constant `WebSocket.OPEN`; `broadcastAll`,
`sendTo` and `broadcastExcept` compare `ws.readyState` against it. -/
def OPEN : Nat := 1

/-- Value of the `ws` library constant `WebSocket.CLOSING`. -/
def CLOSING : Nat := 2

/-- Value of the `ws` library constant `WebSocket.CLOSED`. -/
def CLOSED : Nat := 3

/-- A transport handle (`WebSocket` from the `ws` package), abstracted to
the only field the core reads: `readyState`. -/
structure Conn where
  readyState : Nat
deriving DecidableEq

/-- A server-to-client message envelope (`ServerMessage` in `types.ts`):
a discriminating `type` field plus a type-dependent `payload`, modelled by
its textual content since the core never inspects payloads. -/
structure ServerMessage where
  type : String
  payload : String
deriving DecidableEq

/-- A client-to-server message envelope (`ClientMessage` in `types.ts`). -/
structure ClientMessage where
  type : String
  payload : String
deriving DecidableEq

/-- Model of `JSON.stringify` on a `ServerMessage` envelope. -/
def stringify (m : ServerMessage) : String :=
  "\x7b\"type\":\"" ++ m.type ++ "\",\"payload\":\"" ++ m.payload ++ "\"\x7d"

/-- The registry `private clients: Map<string, WebSocket>`, as an
association list in insertion order with unique keys. -/
abbrev Registry := List (String × Conn)

/-- One transport write: `ws.send(data)` on the connection whose id is
`target`, carrying the serialized bytes `data`. -/
structure Write where
  target : String
  data : String
deriving DecidableEq

/-- Observable effect of one routing-helper call: the writes issued, in
order, and how many times `JSON.stringify` ran during the call. -/
structure SendLog where
  writes : List Write
  serializations : Nat
deriving DecidableEq

/-- The effect of a helper call that writes nothing and serializes
nothing (a warn-and-return path). -/
def emptyLog : SendLog := ⟨[], 0⟩

/-- JavaScript `Map.set`: replace the value in place if the key is
present, otherwise append the new entry at the end. -/
def setEntry : Registry → String → Conn → Registry
  | [], c, ws => [(c, ws)]
  | p :: rest, c, ws => if p.1 = c then (c, ws) :: rest else p :: setEntry rest c ws

/-- JavaScript `Map.delete`: remove the (unique) entry with the given
key, leaving the list unchanged when the key is absent. -/
def removeEntry : Registry → String → Registry
  | [], _ => []
  | p :: rest, c => if p.1 = c then rest else p :: removeEntry rest c

/-- JavaScript `Map.get`: the value at the key, if present. -/
def lookupEntry : Registry → String → Option Conn
  | [], _ => none
  | p :: rest, c => if p.1 = c then some p.2 else lookupEntry rest c

/-- `WSServer.broadcastAll`: serialize the message once, then iterate the
registry; send the serialized bytes to each connection whose
`readyState` is `OPEN`, and only warn (no write) for any other
connection. The registry itself is only read, never written. -/
def broadcastAll (clients : Registry) (message : ServerMessage) : Registry × SendLog :=
  let data := stringify message
  (clients,
    ⟨clients.filterMap fun p =>
        if p.2.readyState = OPEN then some ⟨p.1, data⟩ else none,
      1⟩)

/-- `WSServer.sendTo`: look the id up in the registry; warn and return if
absent; warn and return if present but not `OPEN`; otherwise serialize
the message and write it to that one connection. -/
def sendTo (clients : Registry) (clientId : String) (message : ServerMessage) :
    Registry × SendLog :=
  match lookupEntry clients clientId with
  | none => (clients, emptyLog)
  | some ws =>
    if ws.readyState = OPEN then
      (clients, ⟨[⟨clientId, stringify message⟩], 1⟩)
    else
      (clients, emptyLog)

/-- `WSServer.broadcastExcept`: serialize once, then send to every
registered connection whose id differs from `excludeClientId` and whose
`readyState` is `OPEN`. -/
def broadcastExcept (clients : Registry) (excludeClientId : String)
    (message : ServerMessage) : Registry × SendLog :=
  let data := stringify message
  (clients,
    ⟨clients.filterMap fun p =>
        if p.1 ≠ excludeClientId ∧ p.2.readyState = OPEN then some ⟨p.1, data⟩ else none,
      1⟩)

/-- `WSServer.getClientCount`: `this.clients.size`. -/
def getClientCount (clients : Registry) : Nat := clients.length

/-- Result of `WSServer.close`: the registry afterwards, the ids whose
transports received a `ws.close()` request, and whether the listening
socket was closed (`this.wss.close()`). -/
structure CloseResult where
  clients : Registry
  closeRequests : List String
  listenerClosed : Bool
deriving DecidableEq

/-- `WSServer.close`: call `ws.close()` on every registered transport and
close the underlying server; the `clients` map itself is not touched. -/
def serverClose (clients : Registry) : CloseResult :=
  ⟨clients, clients.map Prod.fst, true⟩

/-- `generateClientId`, as a function of the two environment samples it
reads: `now` is the value of `Date.now()` (a decimal timestamp) and
`rand` is the string `Math.random().toString(36).substring(2, 11)`.
The template literal concatenates
`client_` + decimal digits of `now` + `_` + `rand`. -/
def generateClientId (now : Nat) (rand : String) : String :=
  "client_" ++ Nat.repr now ++ "_" ++ rand

/-- A transport-level event delivered to the handlers that
`setupWebSocketServer`/`setupClientHandlers` install: a `connection`
event (carrying the id that `generateClientId` produced and the accepted
socket), an inbound `message` frame, a `close` event, or an `error`
event on a client socket. -/
inductive Event where
  | connection (clientId : String) (ws : Conn)
  | message (clientId : String) (frame : String)
  | close (clientId : String)
  | error (clientId : String)
deriving DecidableEq

/-- Dispatcher state: the registry plus the observable history — the ids
passed to `appLogic.handleConnect`, `appLogic.handleMessage` and
`appLogic.handleDisconnect`, in call order, and the transport writes the
dispatcher itself issued (the parse-failure error responses). -/
structure DispatchState where
  clients : Registry
  connectLog : List String
  messageLog : List String
  disconnectLog : List String
  writes : List Write
deriving DecidableEq

/-- The server state before any event: empty registry, no handler calls,
no writes. -/
def initState : DispatchState := ⟨[], [], [], [], []⟩

/-- The error response built in the `catch` branch of the `message`
handler: `type: 'error'`, payload `message: 'Invalid message format'`. -/
def invalidFormatMessage : ServerMessage := ⟨"error", "Invalid message format"⟩

/-- One dispatcher step, processing a single transport event exactly as
the installed handlers do. `parse` models `JSON.parse(data.toString())
as ClientMessage`, returning `none` when `JSON.parse` throws.
On `connection`: `clients.set(clientId, ws)` then `handleConnect`.
On `message`: on parse success `handleMessage`, on parse failure
`this.sendTo(clientId, invalidFormatMessage)` and no handler call.
On `close`: `clients.delete(clientId)` then `handleDisconnect`.
On `error`: only `console.error` — no registry change, no handler call. -/
def step (parse : String → Option ClientMessage) (s : DispatchState) : Event → DispatchState
  | .connection clientId ws =>
      { s with clients := setEntry s.clients clientId ws,
               connectLog := s.connectLog ++ [clientId] }
  | .message clientId frame =>
      match parse frame with
      | some _ => { s with messageLog := s.messageLog ++ [clientId] }
      | none =>
          { s with writes := s.writes ++ (sendTo s.clients clientId invalidFormatMessage).2.writes }
  | .close clientId =>
      { s with clients := removeEntry s.clients clientId,
               disconnectLog := s.disconnectLog ++ [clientId] }
  | .error _ => s

/-- Process a whole trace of transport events, left to right. -/
def run (parse : String → Option ClientMessage) (s : DispatchState)
    (t : List Event) : DispatchState :=
  t.foldl (step parse) s

/-- A concrete model parser under which every frame fails to parse, used
to instantiate closed evaluations of the dispatcher. -/
def parseNone : String → Option ClientMessage := fun _ => none

/-- Well-formedness of an event trace arriving while the live ids are
`live` (in registry order). It captures what the `ws` transport
guarantees the dispatcher: each `connection` event carries an id not
currently live (`generateClientId` uniqueness for concurrently open
connections), and a socket's single `close` event concerns a currently
live id (the close handler is installed right after registration and
fires exactly once per socket). `message` and `error` events are
unconstrained. -/
inductive WfFrom : List String → List Event → Prop
  | nil {live : List String} : WfFrom live []
  | connection {c : String} {live : List String} {t : List Event} {ws : Conn} :
      c ∉ live → WfFrom (live ++ [c]) t →
      WfFrom live (Event.connection c ws :: t)
  | message {c : String} {live : List String} {t : List Event} {f : String} :
      WfFrom live t → WfFrom live (Event.message c f :: t)
  | close {c : String} {live : List String} {t : List Event} :
      c ∈ live → WfFrom (live.erase c) t →
      WfFrom live (Event.close c :: t)
  | error {c : String} {live : List String} {t : List Event} :
      WfFrom live t → WfFrom live (Event.error c :: t)

/-- The id of a `close` event, used to count cleanup-triggering events. -/
def closeEventId : Event → Option String
  | .close c => some c
  | _ => none

/-- Decimal value of a digit-character list, inverse to the digit list
that `Nat.repr` produces; used to show `Nat.repr` is injective. -/
def charsVal (l : List Char) : Nat :=
  l.foldl (fun acc c => acc * 10 + (c.toNat - 48)) 0

/-- A sample outbound message for concrete evaluations. -/
def m0 : ServerMessage := ⟨"systemMessage", "hello"⟩

/-- A sample registry: connections A and C open, B in `CLOSING` state. -/
def cl0 : Registry := [("A", ⟨OPEN⟩), ("B", ⟨CLOSING⟩), ("C", ⟨OPEN⟩)]

/-- A sample dispatcher state holding the single open connection X. -/
def s0 : DispatchState := ⟨[("X", ⟨OPEN⟩)], ["X"], [], [], []⟩

/-- Sample environment draws for three accepted connections: two in the
same millisecond with different random suffixes, one later repeating a
suffix. -/
def samples0 : List (Nat × String) :=
  [(1700, "k3j9q0a1b"), (1700, "z8p2w5m4c"), (1741, "k3j9q0a1b")]

/-- A sample well-formed transport trace: A and B connect, then A
closes. -/
def trace0 : List Event :=
  [Event.connection "A" ⟨OPEN⟩, Event.connection "B" ⟨OPEN⟩, Event.close "A"]

/-- `Map.set` with a fresh key appends the entry at the end, as JS `Map`
insertion order prescribes. -/
theorem setEntry_of_fresh (l : Registry) (c : String) (ws : Conn)
    (h : c ∉ l.map Prod.fst) : setEntry l c ws = l ++ [(c, ws)] := by
  induction l with
  | nil => rfl
  | cons p rest ih =>
      simp only [List.map_cons, List.mem_cons] at h
      push_neg at h
      simp [setEntry, Ne.symm h.1, ih h.2]

/-- `Map.delete` erases exactly the matching key from the key sequence. -/
theorem removeEntry_map_fst (l : Registry) (c : String) :
    (removeEntry l c).map Prod.fst = (l.map Prod.fst).erase c := by
  induction l with
  | nil => rfl
  | cons p rest ih =>
      by_cases h : p.1 = c
      · simp [removeEntry, h, List.erase_cons]
      · simp [removeEntry, h, List.erase_cons, Ne.symm h, ih]

/-- `Map.delete` of a present key shrinks the map by exactly one entry. -/
theorem removeEntry_length (l : Registry) (c : String)
    (h : c ∈ l.map Prod.fst) : l.length = (removeEntry l c).length + 1 := by
  induction l with
  | nil => simp at h
  | cons p rest ih =>
      by_cases hp : p.1 = c
      · simp [removeEntry, hp]
      · simp only [List.map_cons, List.mem_cons] at h
        rcases h with h | h
        · exact absurd h.symm hp
        · simp [removeEntry, hp, ih h]

/-- Claim C2 — `broadcastAll` is partial-failure tolerant: it writes the
one serialization of the message to every registered connection whose
transport is `OPEN` (the write targets are exactly the open registered
ids, in registry order, so a non-writable connection never aborts the
remaining iteration), every issued write goes to an open registered
connection, and no exception path exists (the function is total). -/
theorem broadcastAll_partial_failure_tolerant (cl : Registry) (m : ServerMessage)
    (cid : String) (conn : Conn)
    (hmem : (cid, conn) ∈ cl) (hopen : conn.readyState = OPEN) :
    Write.mk cid (stringify m) ∈ (broadcastAll cl m).2.writes ∧
    (broadcastAll cl m).2.writes.map Write.target
      = cl.filterMap (fun p => if p.2.readyState = OPEN then some p.1 else none) ∧
    ∀ w ∈ (broadcastAll cl m).2.writes,
      w.data = stringify m ∧ ∃ c2, (w.target, c2) ∈ cl ∧ c2.readyState = OPEN := by
  refine ⟨?_, ?_, ?_⟩
  · exact List.mem_filterMap.mpr ⟨(cid, conn), hmem, by simp [hopen]⟩
  · show List.map _ (List.filterMap _ cl) = _
    rw [List.map_filterMap]
    congr 1
    funext p
    by_cases h : p.2.readyState = OPEN <;> simp [h]
  · intro w hw
    rcases List.mem_filterMap.mp hw with ⟨p, hp, hfp⟩
    by_cases h : p.2.readyState = OPEN
    · simp only [h, if_pos, Option.some.injEq] at hfp
      subst hfp
      exact ⟨rfl, p.2, hp, h⟩
    · simp [h] at hfp

/-- Concrete instance of claim C2: in registry `cl0` (B non-writable),
broadcasting `m0` writes to A, the write targets are exactly A and C,
and each write carries the single serialization of `m0`. -/
theorem broadcastAll_partial_failure_tolerant_witness :
    ("A", Conn.mk OPEN) ∈ cl0 ∧ (Conn.mk OPEN).readyState = OPEN ∧
    (Write.mk "A" (stringify m0) ∈ (broadcastAll cl0 m0).2.writes ∧
      (broadcastAll cl0 m0).2.writes.map Write.target
        = cl0.filterMap (fun p => if p.2.readyState = OPEN then some p.1 else none) ∧
      ∀ w ∈ (broadcastAll cl0 m0).2.writes,
        w.data = stringify m0 ∧ ∃ c2, (w.target, c2) ∈ cl0 ∧ c2.readyState = OPEN) :=
  ⟨by decide, rfl,
    broadcastAll_partial_failure_tolerant cl0 m0 "A" (Conn.mk OPEN) (by decide) rfl⟩

/-- Claim C5 — `broadcastExcept ex m` on a nonempty registry writes the
serialized message to every registered connection that is `OPEN` and
whose id differs from `ex` (the write targets are exactly those ids, in
registry order), and issues no write whatsoever to `ex`. -/
theorem broadcastExcept_excludes_only_target (cl : Registry) (ex : String)
    (m : ServerMessage) (cid : String) (conn : Conn)
    (_hne : cl ≠ []) (hmem : (cid, conn) ∈ cl) (hcid : cid ≠ ex)
    (hopen : conn.readyState = OPEN) :
    Write.mk cid (stringify m) ∈ (broadcastExcept cl ex m).2.writes ∧
    (broadcastExcept cl ex m).2.writes.map Write.target
      = cl.filterMap
          (fun p => if p.1 ≠ ex ∧ p.2.readyState = OPEN then some p.1 else none) ∧
    ∀ w ∈ (broadcastExcept cl ex m).2.writes,
      w.target ≠ ex ∧ w.data = stringify m := by
  refine ⟨?_, ?_, ?_⟩
  · exact List.mem_filterMap.mpr ⟨(cid, conn), hmem, by simp [hopen, hcid]⟩
  · show List.map _ (List.filterMap _ cl) = _
    rw [List.map_filterMap]
    congr 1
    funext p
    by_cases h : p.1 ≠ ex ∧ p.2.readyState = OPEN <;> simp [h]
  · intro w hw
    rcases List.mem_filterMap.mp hw with ⟨p, _, hfp⟩
    by_cases h : p.1 ≠ ex ∧ p.2.readyState = OPEN
    · rw [if_pos h] at hfp
      injection hfp with hfp
      subst hfp
      exact ⟨h.1, rfl⟩
    · simp [h] at hfp

/-- Concrete instance of claim C5: excluding A in registry `cl0`, the
broadcast reaches C, targets exactly C, and A gets nothing. -/
theorem broadcastExcept_excludes_only_target_witness :
    cl0 ≠ [] ∧ ("C", Conn.mk OPEN) ∈ cl0 ∧ "C" ≠ "A" ∧
    (Conn.mk OPEN).readyState = OPEN ∧
    (Write.mk "C" (stringify m0) ∈ (broadcastExcept cl0 "A" m0).2.writes ∧
      (broadcastExcept cl0 "A" m0).2.writes.map Write.target
        = cl0.filterMap
            (fun p => if p.1 ≠ "A" ∧ p.2.readyState = OPEN then some p.1 else none) ∧
      ∀ w ∈ (broadcastExcept cl0 "A" m0).2.writes,
        w.target ≠ "A" ∧ w.data = stringify m0) :=
  ⟨by decide, by decide, by decide, rfl,
    broadcastExcept_excludes_only_target cl0 "A" m0 "C" (Conn.mk OPEN)
      (by decide) (by decide) (by decide) rfl⟩

/-- Claim C6 — `sendTo` drops silently: when the id is not in the
registry it returns with no write, no serialization and an unchanged
registry, and the same when the id is present but its transport is not
`OPEN`; no exception path exists (the function is total). -/
theorem sendTo_silent_drop (cl : Registry) (clientId : String) (m : ServerMessage) :
    (lookupEntry cl clientId = none → sendTo cl clientId m = (cl, emptyLog)) ∧
    (∀ conn, lookupEntry cl clientId = some conn → conn.readyState ≠ OPEN →
      sendTo cl clientId m = (cl, emptyLog)) := by
  constructor
  · intro h
    simp [sendTo, h]
  · intro conn h hstate
    simp [sendTo, h, hstate]

/-- Concrete instance of claim C6: `sendTo` on the absent id `nope` and
on the present-but-`CLOSING` connection B writes nothing and leaves the
registry as it was. -/
theorem sendTo_silent_drop_witness :
    sendTo cl0 "nope" m0 = (cl0, emptyLog) ∧ sendTo cl0 "B" m0 = (cl0, emptyLog) :=
  ⟨(sendTo_silent_drop cl0 "nope" m0).1 (by decide),
    (sendTo_silent_drop cl0 "B" m0).2 (Conn.mk CLOSING) (by decide) (by decide)⟩

/-- Claim C7 — each call to `broadcastAll` or `broadcastExcept` runs
`JSON.stringify` exactly once, and every write it issues carries that
single serialization of the message, byte for byte. -/
theorem broadcast_serializes_once (cl : Registry) (m : ServerMessage) (ex : String) :
    (broadcastAll cl m).2.serializations = 1 ∧
    (broadcastExcept cl ex m).2.serializations = 1 ∧
    (∀ w ∈ (broadcastAll cl m).2.writes, w.data = stringify m) ∧
    (∀ w ∈ (broadcastExcept cl ex m).2.writes, w.data = stringify m) := by
  refine ⟨rfl, rfl, ?_, ?_⟩
  · intro w hw
    rcases List.mem_filterMap.mp hw with ⟨p, _, hfp⟩
    by_cases h : p.2.readyState = OPEN
    · simp only [h, if_pos, Option.some.injEq] at hfp
      subst hfp
      rfl
    · simp [h] at hfp
  · intro w hw
    rcases List.mem_filterMap.mp hw with ⟨p, _, hfp⟩
    by_cases h : p.1 ≠ ex ∧ p.2.readyState = OPEN
    · rw [if_pos h] at hfp
      injection hfp with hfp
      subst hfp
      rfl
    · simp [h] at hfp

/-- Concrete instance of claim C7: on registry `cl0` both broadcast
helpers serialize exactly once and the writes reuse those bytes. -/
theorem broadcast_serializes_once_witness :
    (broadcastAll cl0 m0).2.serializations = 1 ∧
    (broadcastExcept cl0 "A" m0).2.serializations = 1 ∧
    ∀ w ∈ (broadcastAll cl0 m0).2.writes, w.data = stringify m0 :=
  ⟨(broadcast_serializes_once cl0 m0 "A").1,
    (broadcast_serializes_once cl0 m0 "A").2.1,
    (broadcast_serializes_once cl0 m0 "A").2.2.1⟩

/-- Claim C9 — the three routing helpers never mutate the registry: for
every registry and arguments, the map of (id, connection) entries after
`broadcastAll`, `sendTo` or `broadcastExcept` is the one before. -/
theorem routing_helpers_preserve_registry (cl : Registry) (m : ServerMessage)
    (clientId ex : String) :
    (broadcastAll cl m).1 = cl ∧ (sendTo cl clientId m).1 = cl ∧
    (broadcastExcept cl ex m).1 = cl := by
  refine ⟨rfl, ?_, rfl⟩
  unfold sendTo
  cases lookupEntry cl clientId with
  | none => rfl
  | some ws =>
      by_cases h : ws.readyState = OPEN <;> simp [h]

/-- Claim C10 — `WSServer.close` removes no registry entries: it issues
a close request to every registered transport and closes the listener,
while `getClientCount` right after the call equals the count before. -/
theorem serverClose_preserves_registry (cl : Registry) :
    (serverClose cl).clients = cl ∧
    getClientCount (serverClose cl).clients = getClientCount cl ∧
    (serverClose cl).closeRequests = cl.map Prod.fst ∧
    (serverClose cl).listenerClosed = true :=
  ⟨rfl, rfl, rfl, rfl⟩

/-- Claim C1, amended — cleanup is driven solely by the `close` event:
a client `error` event leaves the dispatcher state fully unchanged (it
is only logged; no unregister, no `handleDisconnect`), a `close` event
removes exactly that id from the registry and appends exactly one
`handleDisconnect` call, and over any trace the `handleDisconnect`
calls are exactly the `close` events in order — so when both an error
and a close fire for one connection, cleanup still happens exactly
once, via the close. -/
theorem cleanup_driven_by_close_alone (parse : String → Option ClientMessage) :
    (∀ (s : DispatchState) (c : String), step parse s (Event.error c) = s) ∧
    (∀ (s : DispatchState) (c : String),
      (step parse s (Event.close c)).clients = removeEntry s.clients c ∧
      (step parse s (Event.close c)).disconnectLog = s.disconnectLog ++ [c]) ∧
    (∀ (s : DispatchState) (t : List Event),
      (run parse s t).disconnectLog = s.disconnectLog ++ t.filterMap closeEventId) := by
  refine ⟨fun s c => rfl, fun s c => ⟨rfl, rfl⟩, ?_⟩
  intro s t
  induction t generalizing s with
  | nil => simp [run]
  | cons e t ih =>
      show (run parse (step parse s e) t).disconnectLog = _
      rw [ih]
      cases e with
      | connection c ws => simp [step, closeEventId]
      | message c f =>
          cases hp : parse f with
          | none => simp [step, hp, closeEventId]
          | some msg => simp [step, hp, closeEventId]
      | close c => simp [step, closeEventId]
      | error c => simp [step, closeEventId]

/-- Counterexample to claim C1 as stated: a connection whose transport
fires an error event and nothing else. The claim demands that the error
alone trigger one registry removal and one `Handler.onDisconnect`; the
dispatcher's error handler only logs, so after the trace the client is
still registered and `handleDisconnect` was never called. -/
theorem error_alone_triggers_no_cleanup :
    (run parseNone initState
        [Event.connection "c1" ⟨OPEN⟩, Event.error "c1"]).disconnectLog = [] ∧
    lookupEntry
        (run parseNone initState
          [Event.connection "c1" ⟨OPEN⟩, Event.error "c1"]).clients "c1"
      = some ⟨OPEN⟩ :=
  ⟨rfl, rfl⟩

/-- Registry/handler-count invariant, generalized over a starting state
whose live key sequence matches the trace's well-formedness index. -/
theorem wf_count_invariant (parse : String → Option ClientMessage)
    {live : List String} {t : List Event} (h : WfFrom live t) :
    ∀ s : DispatchState, live = s.clients.map Prod.fst →
      (s.clients.map Prod.fst).Nodup →
      s.connectLog.length = s.clients.length + s.disconnectLog.length →
      ((run parse s t).clients.map Prod.fst).Nodup ∧
        (run parse s t).connectLog.length
          = (run parse s t).clients.length + (run parse s t).disconnectLog.length := by
  induction h with
  | nil =>
      intro s hlive hnodup hlen
      exact ⟨hnodup, hlen⟩
  | @connection c live t ws hc _hwf ih =>
      intro s hlive hnodup hlen
      have hc' : c ∉ s.clients.map Prod.fst := hlive ▸ hc
      have hset : setEntry s.clients c ws = s.clients ++ [(c, ws)] :=
        setEntry_of_fresh s.clients c ws hc'
      show ((run parse (step parse s (Event.connection c ws)) t).clients.map Prod.fst).Nodup ∧ _
      refine ih (step parse s (Event.connection c ws)) ?_ ?_ ?_
      · simp [step, hset, hlive]
      · simp only [step, hset, List.map_append, List.nodup_append]
        exact ⟨hnodup, List.nodup_singleton c, by simpa using hc'⟩
      · simp [step, hset, hlen]
        omega
  | @message c live t f _hwf ih =>
      intro s hlive hnodup hlen
      show ((run parse (step parse s (Event.message c f)) t).clients.map Prod.fst).Nodup ∧ _
      cases hp : parse f with
      | some msg =>
          refine ih _ ?_ ?_ ?_ <;> simp [step, hp, hlive, hnodup, hlen]
      | none =>
          refine ih _ ?_ ?_ ?_ <;> simp [step, hp, hlive, hnodup, hlen]
  | @close c live t hc _hwf ih =>
      intro s hlive hnodup hlen
      have hc' : c ∈ s.clients.map Prod.fst := hlive ▸ hc
      show ((run parse (step parse s (Event.close c)) t).clients.map Prod.fst).Nodup ∧ _
      refine ih (step parse s (Event.close c)) ?_ ?_ ?_
      · simp [step, removeEntry_map_fst, hlive]
      · simp only [step, removeEntry_map_fst]
        exact hnodup.erase c
      · have := removeEntry_length s.clients c hc'
        simp [step]
        omega
  | @error c live t _hwf ih =>
      intro s hlive hnodup hlen
      exact ih s hlive hnodup hlen

/-- Claim C3 — after any well-formed sequence of transport events from
startup, `getClientCount` equals the number of `handleConnect` calls
minus the number of `handleDisconnect` calls made so far. -/
theorem client_count_eq_connects_minus_disconnects
    (parse : String → Option ClientMessage) (t : List Event) (h : WfFrom [] t) :
    getClientCount (run parse initState t).clients
        + (run parse initState t).disconnectLog.length
      = (run parse initState t).connectLog.length ∧
    getClientCount (run parse initState t).clients
      = (run parse initState t).connectLog.length
          - (run parse initState t).disconnectLog.length := by
  have := wf_count_invariant parse h initState rfl (by simp [initState]) (by simp [initState])
  unfold getClientCount
  omega

/-- Concrete instance of claim C3: trace `trace0` (A and B connect, A
closes) is well formed, and afterwards the count is 1 with two
`handleConnect` and one `handleDisconnect` calls. -/
theorem client_count_eq_connects_minus_disconnects_witness :
    WfFrom [] trace0 ∧
    (getClientCount (run parseNone initState trace0).clients
        + (run parseNone initState trace0).disconnectLog.length
      = (run parseNone initState trace0).connectLog.length ∧
    getClientCount (run parseNone initState trace0).clients
      = (run parseNone initState trace0).connectLog.length
          - (run parseNone initState trace0).disconnectLog.length) :=
  have hwf : WfFrom [] trace0 :=
    WfFrom.connection (by decide)
      (WfFrom.connection (by decide) (WfFrom.close (by decide) WfFrom.nil))
  ⟨hwf, client_count_eq_connects_minus_disconnects parseNone trace0 hwf⟩

/-- Claim C4 — a frame that fails to parse is isolated: the dispatcher
sends exactly one `error`-typed response to the offending (registered,
open) connection and to it only, invokes no handler callback, and
leaves that connection registered with its transport state untouched;
no exception escapes (the step function is total). -/
theorem parse_failure_isolated (parse : String → Option ClientMessage)
    (s : DispatchState) (x frame : String) (conn : Conn)
    (hreg : lookupEntry s.clients x = some conn)
    (hopen : conn.readyState = OPEN)
    (hfail : parse frame = none) :
    (step parse s (Event.message x frame)).clients = s.clients ∧
    (step parse s (Event.message x frame)).connectLog = s.connectLog ∧
    (step parse s (Event.message x frame)).messageLog = s.messageLog ∧
    (step parse s (Event.message x frame)).disconnectLog = s.disconnectLog ∧
    (step parse s (Event.message x frame)).writes
      = s.writes ++ [Write.mk x (stringify invalidFormatMessage)] ∧
    invalidFormatMessage.type = "error" ∧
    lookupEntry (step parse s (Event.message x frame)).clients x = some conn := by
  have hs : step parse s (Event.message x frame)
      = { s with writes := s.writes ++ (sendTo s.clients x invalidFormatMessage).2.writes } := by
    simp [step, hfail]
  rw [hs]
  refine ⟨rfl, rfl, rfl, rfl, ?_, rfl, hreg⟩
  simp [sendTo, hreg, hopen]

/-- Concrete instance of claim C4: in state `s0` (one open connection
X), an unparsable frame produces exactly one `error` response to X,
zero handler calls, and X stays registered and open. -/
theorem parse_failure_isolated_witness :
    lookupEntry s0.clients "X" = some ⟨OPEN⟩ ∧
    (Conn.mk OPEN).readyState = OPEN ∧
    parseNone "this is not json" = none ∧
    ((step parseNone s0 (Event.message "X" "this is not json")).clients = s0.clients ∧
      (step parseNone s0 (Event.message "X" "this is not json")).connectLog = s0.connectLog ∧
      (step parseNone s0 (Event.message "X" "this is not json")).messageLog = s0.messageLog ∧
      (step parseNone s0 (Event.message "X" "this is not json")).disconnectLog
        = s0.disconnectLog ∧
      (step parseNone s0 (Event.message "X" "this is not json")).writes
        = s0.writes ++ [Write.mk "X" (stringify invalidFormatMessage)] ∧
      invalidFormatMessage.type = "error" ∧
      lookupEntry (step parseNone s0 (Event.message "X" "this is not json")).clients "X"
        = some ⟨OPEN⟩) :=
  ⟨rfl, rfl, rfl,
    parse_failure_isolated parseNone s0 "X" "this is not json" ⟨OPEN⟩ rfl rfl rfl⟩

/-- Base-10 digit characters are never an underscore. -/
theorem digitChar_ne_underscore : ∀ m : Nat, m < 10 → Nat.digitChar m ≠ '_' := by
  decide

/-- The digit accumulator of `Nat.repr` introduces no underscore. -/
theorem toDigitsCore_no_underscore :
    ∀ (fuel n : Nat) (ds : List Char), '_' ∉ ds →
      '_' ∉ Nat.toDigitsCore 10 fuel n ds := by
  intro fuel
  induction fuel with
  | zero =>
      intro n ds h
      simpa [Nat.toDigitsCore] using h
  | succ fuel ih =>
      intro n ds h
      simp only [Nat.toDigitsCore]
      by_cases h10 : n / 10 = 0
      · simp only [h10, if_pos]
        intro hmem
        rcases List.mem_cons.mp hmem with he | he
        · exact digitChar_ne_underscore (n % 10) (by omega) he.symm
        · exact h he
      · simp only [h10, if_neg, if_false]
        refine ih (n / 10) (Nat.digitChar (n % 10) :: ds) ?_
        intro hmem
        rcases List.mem_cons.mp hmem with he | he
        · exact digitChar_ne_underscore (n % 10) (by omega) he.symm
        · exact h he

/-- Pushing an already-accumulated suffix out of `Nat.toDigitsCore`. -/
theorem toDigitsCore_append :
    ∀ (fuel n : Nat) (l1 l2 : List Char),
      Nat.toDigitsCore 10 fuel n (l1 ++ l2) = Nat.toDigitsCore 10 fuel n l1 ++ l2 := by
  intro fuel
  induction fuel with
  | zero =>
      intro n l1 l2
      simp [Nat.toDigitsCore]
  | succ fuel ih =>
      intro n l1 l2
      simp only [Nat.toDigitsCore]
      by_cases h10 : n / 10 = 0
      · simp [h10]
      · simp only [h10, if_neg, if_false]
        exact ih (n / 10) (Nat.digitChar (n % 10) :: l1) l2

/-- Appending one digit character multiplies the accumulated value by
ten and adds the digit. -/
theorem charsVal_append_digit (l : List Char) (c : Char) :
    charsVal (l ++ [c]) = 10 * charsVal l + (c.toNat - 48) := by
  simp [charsVal, List.foldl_append, Nat.mul_comm]

/-- Numeric value of a base-10 digit character. -/
theorem digitChar_val : ∀ m : Nat, m < 10 → (Nat.digitChar m).toNat - 48 = m := by
  decide

/-- With enough fuel, `Nat.toDigitsCore` produces exactly the decimal
digits of its input: evaluating them recovers the number. -/
theorem toDigitsCore_val :
    ∀ fuel n : Nat, n < fuel → charsVal (Nat.toDigitsCore 10 fuel n []) = n := by
  intro fuel
  induction fuel with
  | zero =>
      intro n h
      omega
  | succ fuel ih =>
      intro n h
      simp only [Nat.toDigitsCore]
      by_cases h10 : n / 10 = 0
      · simp only [h10, if_pos]
        have h1 : (Nat.digitChar (n % 10)).toNat - 48 = n % 10 := digitChar_val _ (by omega)
        simp [charsVal, h1]
        omega
      · simp only [h10, if_neg, if_false]
        have hps : Nat.digitChar (n % 10) :: ([] : List Char)
            = [] ++ [Nat.digitChar (n % 10)] := rfl
        rw [hps, toDigitsCore_append, charsVal_append_digit,
          ih (n / 10) (by omega), digitChar_val _ (by omega)]
        omega

/-- The characters of `Nat.repr n` are its digit list from
`Nat.toDigitsCore`. -/
theorem repr_data (n : Nat) : (Nat.repr n).data = Nat.toDigitsCore 10 (n + 1) n [] := rfl

/-- Decimal representations of naturals contain no underscore. -/
theorem repr_no_underscore (n : Nat) : '_' ∉ (Nat.repr n).data := by
  rw [repr_data]
  exact toDigitsCore_no_underscore (n + 1) n [] (by simp)

/-- `Nat.repr` is injective: distinct numbers print differently. -/
theorem repr_inj {a b : Nat} (h : Nat.repr a = Nat.repr b) : a = b := by
  have hd : (Nat.repr a).data = (Nat.repr b).data := by rw [h]
  rw [repr_data, repr_data] at hd
  have ha := toDigitsCore_val (a + 1) a (Nat.lt_succ_self a)
  have hb := toDigitsCore_val (b + 1) b (Nat.lt_succ_self b)
  rw [← ha, ← hb, hd]

/-- String concatenation concatenates the character lists. -/
theorem string_data_append (s t : String) : (s ++ t).data = s.data ++ t.data := by
  cases s
  cases t
  rfl

/-- Strings with the same characters are equal. -/
theorem string_ext {s t : String} (h : s.data = t.data) : s = t := by
  cases s
  cases t
  exact congrArg String.mk h

/-- Splitting at the first underscore is unambiguous when neither
left-hand part contains one. -/
theorem underscore_split :
    ∀ (a1 a2 r1 r2 : List Char), '_' ∉ a1 → '_' ∉ a2 →
      a1 ++ '_' :: r1 = a2 ++ '_' :: r2 → a1 = a2 ∧ r1 = r2 := by
  intro a1
  induction a1 with
  | nil =>
      intro a2 r1 r2 h1 h2 heq
      cases a2 with
      | nil => simpa using heq
      | cons y a2 =>
          injection heq with hy htail
          exact absurd (by rw [← hy]; exact List.mem_cons_self _ _) h2
  | cons x a1 ih =>
      intro a2 r1 r2 h1 h2 heq
      cases a2 with
      | nil =>
          injection heq with hy htail
          exact absurd (by rw [hy]; exact List.mem_cons_self _ _) h1
      | cons y a2 =>
          injection heq with hxy htail
          have h1' : '_' ∉ a1 := fun hm => h1 (List.mem_cons_of_mem _ hm)
          have h2' : '_' ∉ a2 := fun hm => h2 (List.mem_cons_of_mem _ hm)
          obtain ⟨he, hr⟩ := ih a2 r1 r2 h1' h2' htail
          exact ⟨by rw [hxy, he], hr⟩

/-- `generateClientId` is injective in the environment samples it reads:
equal ids force an equal `Date.now()` value and an equal random
suffix. -/
theorem generateClientId_inj {n1 n2 : Nat} {r1 r2 : String}
    (h : generateClientId n1 r1 = generateClientId n2 r2) : n1 = n2 ∧ r1 = r2 := by
  have h2 := congrArg String.data h
  rw [generateClientId, generateClientId] at h2
  rw [string_data_append, string_data_append, string_data_append,
    string_data_append, string_data_append, string_data_append] at h2
  have hu : ("_" : String).data = ['_'] := rfl
  rw [hu, List.append_assoc, List.append_assoc, List.append_assoc,
    List.append_assoc, List.singleton_append, List.singleton_append] at h2
  have h3 := List.append_cancel_left h2
  obtain ⟨hrepr, hr⟩ :=
    underscore_split _ _ _ _ (repr_no_underscore n1) (repr_no_underscore n2) h3
  exact ⟨repr_inj (string_ext hrepr), string_ext hr⟩

/-- Claim C8, amended — the ids of simultaneously open connections are
pairwise distinct whenever the environment samples behind them (the
`Date.now()` value and the `Math.random` suffix drawn at each accept)
are pairwise distinct: `generateClientId` is injective in those
samples. Uniqueness cannot be unconditional, because the function of
the samples is deterministic. -/
theorem client_ids_distinct_for_distinct_samples (samples : List (Nat × String))
    (h : samples.Nodup) :
    (samples.map fun p => generateClientId p.1 p.2).Nodup := by
  have hinj : Function.Injective fun p : Nat × String => generateClientId p.1 p.2 := by
    intro p q hpq
    obtain ⟨h1, h2⟩ := generateClientId_inj hpq
    cases p
    cases q
    simp only at h1 h2
    rw [h1, h2]
  exact h.map hinj

/-- Concrete instance of amended claim C8: the three draws in
`samples0` are distinct, so the three generated client ids are
pairwise distinct. -/
theorem client_ids_distinct_for_distinct_samples_witness :
    samples0.Nodup ∧ (samples0.map fun p => generateClientId p.1 p.2).Nodup :=
  ⟨by decide, client_ids_distinct_for_distinct_samples samples0 (by decide)⟩

/-- Counterexample to claim C8 as stated: two connections accepted in
the same millisecond for which `Math.random` yields the same substring
receive the same identifier, so the ids of N simultaneously open
connections are not unconditionally pairwise distinct. -/
theorem duplicate_ids_for_equal_samples :
    ¬ (([((5 : Nat), "k3j9q0a1b"), ((5 : Nat), "k3j9q0a1b")].map
        fun p => generateClientId p.1 p.2).Nodup) := by
  decide

end WsRepo
